import Mathlib

/-!
Verification of the freshness-aware data access and ingestion pipeline of a
cryptocurrency monitoring backend (`backend/crypto_web_app.py`,
`backend/realtime_processor.py`, `backend/data_processor.py`,
`backend/scheduler.py`).

The Python sources are shallowly embedded: prices and percentages become `ℚ`,
timestamps become `ℤ` (measured in hours where the 24-hour lookback matters),
and external collaborators (the MySQL store, the Redis cache manager, the
scraper) become explicit parameters.  A collaborator call that can raise is
modelled with `Except Unit` or a `Bool` flag, following the `try`/`except`
structure of the source; the embedded functions are total, which models the
fact that the corresponding Python functions return normally on the paths
considered.  The float expression `variance ** 0.5` is the only genuinely
real-valued computation; it is modelled with `Real.sqrt` on top of an
otherwise rational (computable) core.
-/

/- ## The `hour_data` store and `CryptoWebApp.calculate_24h_change` -/

/-- A row of the `hour_data` table, restricted to the columns read by
`calculate_24h_change`: the instrument symbol, the row date in hours, and the
close price. -/
structure HourRow where
  symbol : String
  date : ℤ
  close_price : ℚ
deriving DecidableEq, Repr

/-- Fold step selecting the row with the greatest `date` (the first such row
when dates tie), modelling `ORDER BY date DESC LIMIT 1` over the filtered
rows. -/
def pickLatest : Option HourRow → HourRow → Option HourRow
  | none, r => some r
  | some b, r => if b.date < r.date then some r else some b

/-- The SQL query issued by `calculate_24h_change`:
`SELECT close_price FROM hour_data WHERE symbol = %s AND date <=
DATE_SUB(NOW(), INTERVAL 24 HOUR) ORDER BY date DESC LIMIT 1`.
Among the rows for `sym` dated at or before `now - 24` hours it returns the
close price of the most recent one, and `none` when no such row exists
(`fetchone` returning `None`). -/
def query24hRef (store : List HourRow) (sym : String) (now : ℤ) : Option ℚ :=
  ((store.filter fun r => decide (r.symbol = sym ∧ r.date ≤ now - 24)).foldl
      pickLatest none).map (·.close_price)

/-- `CryptoWebApp.calculate_24h_change`.  `storeRaises = true` models the
`except` branch: any error from the store read is caught, logged, and the
function returns `None`.  A fetched reference price participates only when it
is truthy (`if result and result[0]:`), i.e. non-zero; otherwise the function
returns `None` so that the caller falls back to the API-provided value. -/
def calculate_24h_change (store : List HourRow) (sym : String) (now : ℤ)
    (current_price : ℚ) (storeRaises : Bool) : Option ℚ :=
  if storeRaises then none
  else
    match query24hRef store sym now with
    | some price_24h_ago =>
        if price_24h_ago ≠ 0 then
          some ((current_price - price_24h_ago) / price_24h_ago * 100)
        else none
    | none => none

/-- The fallback selection on line 257 of `crypto_web_app.py`:
`change_24h = calculated_change if calculated_change is not None else
(float(api_change_24h) if api_change_24h is not None else 0.0)`. -/
def resolveChange (calculated : Option ℚ) (api_change_24h : Option ℚ) : ℚ :=
  match calculated with
  | some c => c
  | none =>
      match api_change_24h with
      | some a => a
      | none => 0

/- ## The read path: `get_latest_prices` and `get_chart_data` -/

/-- A row returned by `db.get_latest_prices(connection)`:
`(name, symbol, price, change_24h, timestamp)`; `api_change_24h` is the
possibly-NULL 24h change reported by the upstream API. -/
structure PriceRow where
  name : String
  symbol : String
  price : ℚ
  api_change_24h : Option ℚ
  timestamp : String
deriving DecidableEq, Repr

/-- An entry of the list built (and cached) by `get_latest_prices`.  The
`change_24h` field is total: the dict built by the source always carries a
numeric value under that key. -/
structure PriceView where
  name : String
  symbol : String
  price : ℚ
  change_24h : ℚ
  timestamp : String
deriving DecidableEq, Repr

/-- Behaviour of the optional Redis cache manager on a read:
`absent` models `self.redis_manager is None` (construction failed);
`raises` models the cache `get` call raising (caught by the caller and
treated as a miss); `returns payload` models a normal return, where an empty
payload is falsy and hence also treated as a miss by the caller
(`if cached_prices:`). -/
inductive CacheRead (β : Type) where
  | absent
  | raises
  | returns (payload : List β)
deriving DecidableEq

/-- Observable outcome of one read-path call: the returned list, whether the
persistent store was consulted (`get_connection`/`connect` called), whether a
connection was actually acquired, whether it was released again
(`close`/`disconnect`), and the payload written back to the cache, if any. -/
structure ReadOutcome (β : Type) where
  result : List β
  dbTouched : Bool
  connAcquired : Bool
  connReleased : Bool
  cacheWrite : Option (List β)
deriving DecidableEq

/-- The per-row transformation of `get_latest_prices`: unpack the tuple,
recompute the 24-hour change through `calculate_24h_change` and fall back to
the API-reported value via `resolveChange`. -/
def latestPriceView (store : List HourRow) (now : ℤ) (hourRaises : Bool)
    (item : PriceRow) : PriceView :=
  { name := item.name
    symbol := item.symbol
    price := item.price
    change_24h :=
      resolveChange
        (calculate_24h_change store item.symbol now item.price hourRaises)
        item.api_change_24h
    timestamp := item.timestamp }

/-- The database branch of `CryptoWebApp.get_latest_prices` (the body of the
outer `try`): acquire a pooled connection (`connOk = false` models
`get_connection` returning a falsy value, upon which `[]` is returned and the
`finally` block finds nothing to close), read the latest price rows
(`dbRead = .error ()` models the read raising; the outer `except` returns `[]`
and `finally` closes the connection), recompute the 24h change per row
through `calculate_24h_change`, then cache the result when the manager is
present and the result is truthy (`if self.redis_manager and result:`); a
raise inside the cache write (`cachePutOk = false`) is caught and logged. -/
def latestPricesDbPath (cachePresent : Bool) (connOk : Bool)
    (dbRead : Except Unit (List PriceRow)) (store : List HourRow) (now : ℤ)
    (hourRaises : Bool) (cachePutOk : Bool) : ReadOutcome PriceView :=
  if connOk = false then ⟨[], true, false, false, none⟩
  else
    match dbRead with
    | .error _ => ⟨[], true, true, true, none⟩
    | .ok data =>
        if data = [] then ⟨[], true, true, true, none⟩
        else
          let result := data.map (latestPriceView store now hourRaises)
          ⟨result, true, true, true,
            if cachePresent && cachePutOk && decide (result ≠ []) then some result
            else none⟩

/-- `CryptoWebApp.get_latest_prices`: first try the Redis cache (skipped when
the manager is absent; an exception from the cache read is caught and treated
as a miss; an empty cached payload is falsy and also a miss), then fall back
to the database branch. -/
def get_latest_prices (cacheGet : CacheRead PriceView) (connOk : Bool)
    (dbRead : Except Unit (List PriceRow)) (store : List HourRow) (now : ℤ)
    (hourRaises : Bool) (cachePutOk : Bool) : ReadOutcome PriceView :=
  match cacheGet with
  | .returns payload =>
      if payload ≠ [] then ⟨payload, false, false, false, none⟩
      else latestPricesDbPath true connOk dbRead store now hourRaises cachePutOk
  | .raises => latestPricesDbPath true connOk dbRead store now hourRaises cachePutOk
  | .absent => latestPricesDbPath false connOk dbRead store now hourRaises cachePutOk

/-- A row of chart data as returned by `db.get_chart_data` (a dict with keys
`date`, `timestamp_ms`, `open`, `high`, `low`, `close`, `volume`; the key
`open` is a Lean keyword and is embedded as `open_price`). -/
structure DbChartRow where
  date : ℤ
  timestamp_ms : Option ℤ
  open_price : ℚ
  high : ℚ
  low : ℚ
  close : ℚ
  volume : ℚ
deriving DecidableEq, Repr

/-- An element of the list returned by `get_chart_data` (and consumed by
`process_chart_data`): a `DbChartRow` tagged with its symbol. -/
structure ChartItem where
  symbol : String
  date : ℤ
  timestamp_ms : Option ℤ
  open_price : ℚ
  high : ℚ
  low : ℚ
  close : ℚ
  volume : ℚ
deriving DecidableEq, Repr

/-- The per-row transformation of `get_chart_data`: tag a database chart row
with the requested symbol. -/
def chartRowView (sym : String) (item : DbChartRow) : ChartItem :=
  { symbol := sym
    date := item.date
    timestamp_ms := item.timestamp_ms
    open_price := item.open_price
    high := item.high
    low := item.low
    close := item.close
    volume := item.volume }

/-- The database branch of `CryptoWebApp.get_chart_data` (the body of the
outer `try`): without a symbol, return `[]` untouched; `self.db.connect()`
failing returns `[]`; the store read raising jumps to the outer `except`
(which returns `[]`) WITHOUT the `self.db.disconnect()` call ever executing —
on that path the acquired connection is not released.  On a successful read
the connection is released first, the rows are tagged with the symbol, and the
result is cached when the manager is present and the result is truthy. -/
def chartDbPath (cachePresent : Bool) (symbol : Option String) (connectOk : Bool)
    (dbRead : Except Unit (List DbChartRow)) (cachePutOk : Bool) :
    ReadOutcome ChartItem :=
  match symbol with
  | none => ⟨[], false, false, false, none⟩
  | some sym =>
      if connectOk = false then ⟨[], true, false, false, none⟩
      else
        match dbRead with
        | .error _ => ⟨[], true, true, false, none⟩
        | .ok data =>
            if data = [] then ⟨[], true, true, true, none⟩
            else
              let result := data.map (chartRowView sym)
              ⟨result, true, true, true,
                if cachePresent && cachePutOk && decide (result ≠ []) then some result
                else none⟩

/-- `CryptoWebApp.get_chart_data`: the cache is consulted only when both the
manager and a symbol are present (`if self.redis_manager and symbol:`); a
cache-read exception is caught and treated as a miss; then the database
branch runs. -/
def get_chart_data (cacheGet : CacheRead ChartItem) (symbol : Option String)
    (connectOk : Bool) (dbRead : Except Unit (List DbChartRow))
    (cachePutOk : Bool) : ReadOutcome ChartItem :=
  match cacheGet, symbol with
  | .returns payload, some sym =>
      if payload ≠ [] then ⟨payload, false, false, false, none⟩
      else chartDbPath true (some sym) connectOk dbRead cachePutOk
  | .raises, some sym => chartDbPath true (some sym) connectOk dbRead cachePutOk
  | .absent, sym => chartDbPath false sym connectOk dbRead cachePutOk
  | _, none => chartDbPath true none connectOk dbRead cachePutOk

/- ## `RealtimeDataProcessor.get_realtime_data` (cache-aside realtime read) -/

/-- A row of `current_prices` as returned by `db.get_latest_prices()` inside
the realtime processor: `(name, symbol, price, change_24h, timestamp,
created_at)`. -/
structure RtDbRow where
  name : String
  symbol : String
  price : ℚ
  change_24h : Option ℚ
  timestamp : String
  created_at : String
deriving DecidableEq, Repr

/-- The cache-format dict built by `get_realtime_data` from a database row;
`change_24h = float(row[3]) if row[3] else 0` (a NULL or zero stored change
yields the integer 0, which has the same rational value). -/
structure RtView where
  name : String
  symbol : String
  price : ℚ
  change_24h : ℚ
  timestamp : String
  created_at : String
deriving DecidableEq, Repr

/-- The row-to-view conversion of `RealtimeDataProcessor.get_realtime_data`. -/
def rtRowToView (row : RtDbRow) : RtView :=
  { name := row.name
    symbol := row.symbol
    price := row.price
    change_24h :=
      match row.change_24h with
      | some c => if c = 0 then 0 else c
      | none => 0
    timestamp := row.timestamp
    created_at := row.created_at }

/-- Outcome of `get_realtime_data`: the Python function returns a list or
`None`, so the result is an `Option`. -/
structure RtReadOutcome where
  result : Option (List RtView)
  dbTouched : Bool
  cacheWrite : Option (List RtView)
deriving DecidableEq

/-- `RealtimeDataProcessor.get_realtime_data`: first
`get_realtime_data_from_cache` (returns the cached list when truthy, else
`None`), then `get_realtime_data_from_db` (`dbConnect = false`: connection
failure yields `None`; `dbRows = .error ()`: the read raises, the `except`
yields `None`, `finally` disconnects; an empty row list is falsy and yields
`None`), and on database data the converted list is written back to the cache
and returned. -/
def get_realtime_data (cached : List RtView) (dbConnect : Bool)
    (dbRows : Except Unit (List RtDbRow)) : RtReadOutcome :=
  if cached ≠ [] then ⟨some cached, false, none⟩
  else
    if dbConnect = false then ⟨none, true, none⟩
    else
      match dbRows with
      | .error _ => ⟨none, true, none⟩
      | .ok rows =>
          if rows = [] then ⟨none, true, none⟩
          else
            let cache_data := rows.map rtRowToView
            ⟨some cache_data, true, some cache_data⟩

/- ## `CryptoWebApp.process_chart_data` (three derived curves) -/

/-- An entry of `price_data`. -/
structure PricePoint where
  date : ℤ
  timestamp_ms : Option ℤ
  price : ℚ
  high : ℚ
  low : ℚ
  open_price : ℚ
deriving DecidableEq, Repr

/-- An entry of `volume_data`. -/
structure VolumePoint where
  date : ℤ
  timestamp_ms : Option ℤ
  volume : ℚ
deriving DecidableEq, Repr

/-- An entry of `volatility_data`.  The source stores
`volatility = variance ** 0.5` and `volatility_percent =
(volatility / mean_price) * 100 if mean_price > 0 else 0`; the record keeps
the rational `mean_price` and `variance`, and the two real-valued source
fields are recovered by `VolPoint.volatility` and
`VolPoint.volatility_percent`. -/
structure VolPoint where
  date : ℤ
  timestamp_ms : Option ℤ
  mean_price : ℚ
  variance : ℚ
deriving DecidableEq, Repr

/-- `volatility = variance ** 0.5`. -/
noncomputable def VolPoint.volatility (v : VolPoint) : ℝ :=
  Real.sqrt (v.variance : ℝ)

/-- `volatility_percent = (volatility / mean_price) * 100 if mean_price > 0
else 0`. -/
noncomputable def VolPoint.volatility_percent (v : VolPoint) : ℝ :=
  if v.mean_price > 0 then v.volatility / (v.mean_price : ℝ) * 100 else 0

/-- The three curves returned by `process_chart_data`. -/
structure ChartCurves where
  price_data : List PricePoint
  volume_data : List VolumePoint
  volatility_data : List VolPoint
deriving DecidableEq

/-- The body of the volatility branch of `process_chart_data` at source index
`i` (reached when `i >= window_size - 1`): the window
`window_prices = [filtered_data[j].close for j in range(i - window_size + 1,
i + 1)]`, its mean, and the population variance used as squared
volatility. -/
def volPointAt (sorted : List ChartItem) (window_size i : ℕ)
    (item : ChartItem) : VolPoint :=
  let window_prices :=
    ((sorted.drop (i + 1 - window_size)).take window_size).map (·.close)
  let mean_price := window_prices.sum / (window_prices.length : ℚ)
  let variance :=
    ((window_prices.map fun price => (price - mean_price) ^ 2).sum) /
      (window_prices.length : ℚ)
  ⟨item.date, item.timestamp_ms, mean_price, variance⟩

/-- `CryptoWebApp.process_chart_data`: filter the items of the requested
symbol, sort them by date (Python `list.sort` is stable; `mergeSort` is the
stable sort available here), and build the three curves.  The volatility
entry at source index `i` exists for `i >= window_size - 1` and is computed
by `volPointAt` over the trailing window of close prices, with
`window_size = min(10, len(filtered_data))`. -/
def process_chart_data (data : List ChartItem) (symbol : String) : ChartCurves :=
  if data = [] then ⟨[], [], []⟩
  else
    let filtered_data := data.filter fun item => item.symbol == symbol
    if filtered_data = [] then ⟨[], [], []⟩
    else
      let sorted := filtered_data.mergeSort fun a b => decide (a.date ≤ b.date)
      let window_size := min 10 sorted.length
      let price_data := sorted.map fun item =>
        (⟨item.date, item.timestamp_ms, item.close, item.high, item.low,
          item.open_price⟩ : PricePoint)
      let volume_data := sorted.map fun item =>
        (⟨item.date, item.timestamp_ms, item.volume⟩ : VolumePoint)
      let volatility_data := sorted.enum.filterMap fun p =>
        if window_size - 1 ≤ p.1 then some (volPointAt sorted window_size p.1 p.2)
        else none
      ⟨price_data, volume_data, volatility_data⟩

/-- Population mean of a list of prices (specification-side definition). -/
def popMean (l : List ℚ) : ℚ := l.sum / (l.length : ℚ)

/-- Population variance of a list of prices (specification-side definition). -/
def popVariance (l : List ℚ) : ℚ :=
  ((l.map fun p => (p - popMean l) ^ 2).sum) / (l.length : ℚ)

/-- Population standard deviation (specification-side definition). -/
noncomputable def popStdDev (l : List ℚ) : ℝ := Real.sqrt (popVariance l : ℝ)

/- ## The ingestion passes -/

/-- A realtime snapshot sample as produced by `scrape_realtime_crypto_data`. -/
structure RtSample where
  name : String
  symbol : String
  price : ℚ
  change_24h : ℚ
  timestamp : ℤ
deriving DecidableEq, Repr

/-- Observable outcome of one `process_and_store_realtime_data` pass:
`accepted` are the samples that passed the quality gate (an
`insert_current_price` call was issued for each), `stored` the subset whose
insert returned success, `cachedPayload` the list handed to
`cache_realtime_prices` (if reached), `perSymbolCached` the samples handed to
the per-symbol `cache_realtime_price` loop, and `ok` the boolean returned by
the pass. -/
structure RtPassOutcome where
  accepted : List RtSample
  stored : List RtSample
  cachedPayload : Option (List RtSample)
  perSymbolCached : List RtSample
  ok : Bool
deriving DecidableEq

/-- `RealtimeDataProcessor.process_and_store_realtime_data`.
Parameters: `dbConnect` models `self.db.connect()`; `scraped` the
`scrape_realtime_crypto_data()` call (`.error ()` = the call raises, caught by
the outer `except`, which returns `False`; an empty list is falsy:
`if not realtime_data: return False`); `score s.timestamp` the quality score
of the sample against the `minute` cadence
(`timestamp_manager.get_data_quality_score`, an external collaborator);
`insertOk` the boolean returned by `db.insert_current_price` (a `False` is
only logged); `cacheListOk` the boolean returned by `cache_realtime_prices`
(likewise only logged).  Note that the cache payload (`cache_ready_data`) and
the per-symbol cache loop iterate over ALL fetched samples, not only the
accepted ones. -/
def process_and_store_realtime_data (dbConnect : Bool)
    (scraped : Except Unit (List RtSample)) (score : ℤ → ℚ)
    (insertOk : RtSample → Bool) (cacheListOk : Bool) : RtPassOutcome :=
  if dbConnect = false then ⟨[], [], none, [], false⟩
  else
    match scraped with
    | .error _ => ⟨[], [], none, [], false⟩
    | .ok realtime_data =>
        if realtime_data = [] then ⟨[], [], none, [], false⟩
        else
          let accepted :=
            realtime_data.filter fun s => decide (score s.timestamp ≥ 0.5)
          let stored := accepted.filter insertOk
          ⟨accepted, stored, some realtime_data, realtime_data, true⟩

/-- A historical OHLCV row as produced by `scrape_all_crypto_data`. -/
structure HistRow where
  symbol : String
  date : ℤ
  open_price : ℚ
  high : ℚ
  low : ℚ
  close : ℚ
  volume : ℚ
  quote_volume : ℚ
deriving DecidableEq, Repr

/-- Observable outcome of one `DataProcessor.process_and_store_data` pass. -/
structure DpPassOutcome where
  storedCurrent : List RtSample
  ok : Bool
  disconnected : Bool
deriving DecidableEq

/-- `DataProcessor.process_and_store_data`: connect (failure returns `False`
before the `try`, so no `disconnect` runs), scrape both the current snapshot
and the historical batches (`.error ()` = the scrape raises; the `except`
returns `False` and the `finally` disconnects), insert every current sample
(a `False` from `insert_current_price` is only logged) and every historical
row (a `False` from `insert_historical_data` is only logged), and return
`True` — an empty scrape result is NOT checked for and also yields `True`. -/
def process_and_store_data (dbConnect : Bool)
    (scraped : Except Unit (List RtSample × List (String × List HistRow)))
    (insertCur : RtSample → Bool) : DpPassOutcome :=
  if dbConnect = false then ⟨[], false, false⟩
  else
    match scraped with
    | .error _ => ⟨[], false, true⟩
    | .ok (current_data, _historical_data) =>
        ⟨current_data.filter insertCur, true, true⟩

/- ## `CryptoWebApp.clear_cache` (the operative definition) -/

/-- The dict returned by `clear_cache`: a success flag and a message.  The
operative source method returns no count of cleared keys. -/
inductive ClearCacheReply where
  | success (message : String)
  | failure (message : String)
deriving DecidableEq, Repr

/-- Whether a reply is a success. -/
def ClearCacheReply.isSuccess : ClearCacheReply → Bool
  | .success _ => true
  | .failure _ => false

/-- The operative `CryptoWebApp.clear_cache` — the class body defines the
method twice and in Python the later definition shadows the earlier one, so
the method reachable from `api_clear_cache` is the second one (lines 688-720):
it supports only `cache_type == 'all' or cache_type is None`, calling
`clear_all_cache()` and reporting a boolean success with a message (no count
of cleared keys); any other scope, including `'prices'` and `'charts'`, is
answered with an unsupported-type failure. -/
def clear_cache (managerPresent : Bool) (clearAllOk : Bool)
    (cache_type : Option String) : ClearCacheReply :=
  if managerPresent = false then .failure "Redis管理器未初始化"
  else
    if cache_type = some "all" ∨ cache_type = none then
      if clearAllOk then .success "所有缓存已清理"
      else .failure "清理缓存失败"
    else
      .failure ("不支持的缓存类型: " ++ (cache_type.getD ""))

/- ## The scheduler dispatch loop -/

/-- Possible behaviours of one job handler invocation, as seen by its
wrapper. -/
inductive HandlerBeh where
  | ok
  | fails
  | raises
  | diverges
deriving DecidableEq, Repr

/-- The handler wrappers `run_realtime_task`, `run_data_collection_task`,
`run_analysis_task`, `run_full_processing` (scheduler.py): each wraps its
handler in `try: if handler(): log success else: log failure except
Exception: log error` — the wrapper returns normally (`some ()`) whether the
handler succeeds, reports failure, or raises; it fails to return (`none`)
exactly when the wrapped handler itself never returns. -/
def wrapped_task : HandlerBeh → Option Unit
  | .diverges => none
  | _ => some ()

/-- Modelled from the spec: the dispatch loop body (`schedule.run_pending()`
of the third-party `schedule` library, which is not part of this repository)
runs the due jobs synchronously, one after the other, within a single tick —
"Job invocation happens synchronously within the loop tick".  For each
registered job `(due, beh)` in registration order, a due job has its wrapper
invoked; if that wrapper never returns, control never reaches any later job.
The result lists, per job, whether its handler was invoked on this tick, and
whether the tick ran to completion. -/
def run_pending : List (Bool × HandlerBeh) → List Bool × Bool
  | [] => ([], true)
  | (due, beh) :: rest =>
      if due then
        match wrapped_task beh with
        | some _ =>
            let r := run_pending rest
            (true :: r.1, r.2)
        | none => (true :: rest.map fun _ => false, false)
      else
        let r := run_pending rest
        (false :: r.1, r.2)

/-- `run_realtime_processor` (realtime_processor.py): `while True:` —
each iteration processes one batch and sleeps; the loop never exits normally
(only a `KeyboardInterrupt` breaks it), so with any finite amount of fuel the
call does not return.  This is the function `scheduler.py` registers as the
realtime job handler. -/
def run_realtime_processor (fuel : Nat) : Option Unit :=
  match fuel with
  | 0 => none
  | n + 1 => run_realtime_processor n

/- ## Concrete fixtures used by witnesses and counterexamples -/

/-- A fresh snapshot sample. -/
def sampleBTC : RtSample := ⟨"Bitcoin", "BTC", 65000, 2, 1⟩

/-- A stale snapshot sample (timestamp 0, scored 0 by `demoScore`). -/
def staleETH : RtSample := ⟨"Ethereum", "ETH", 3000, 1, 0⟩

/-- A demonstration quality-score collaborator: a sample timestamped 1 is
fresh (score 1), anything else is stale (score 0). -/
def demoScore : ℤ → ℚ := fun t => if t = 1 then 1 else 0

/-- A historical close for BTC, 24 hours before `now = 24`. -/
def hourRowBTC : HourRow := ⟨"BTC", 0, 1⟩

/-- A latest-price database row with an API-reported change of 5. -/
def rowBTC : PriceRow := ⟨"Bitcoin", "BTC", 2, some 5, "2026-01-01 00:00:00"⟩

/-- A cached latest-price view. -/
def viewBTC : PriceView := ⟨"Bitcoin", "BTC", 2, 5, "2026-01-01 00:00:00"⟩

/-- A single chart item for the volatility computation. -/
def chartItemBTC : ChartItem := ⟨"BTC", 5, none, 1, 1, 1, 1, 1⟩

/- ## Helper lemmas -/

theorem foldl_pickLatest_some (l : List HourRow) (b : HourRow) :
    l.foldl pickLatest (some b) ≠ none := by
  induction l generalizing b with
  | nil => simp
  | cons r t ih =>
      have hpl : pickLatest (some b) r =
          if b.date < r.date then some r else some b := rfl
      by_cases hbr : b.date < r.date <;>
        simp [List.foldl_cons, hpl, hbr, ih]

theorem foldl_pickLatest_eq_none (l : List HourRow) :
    l.foldl pickLatest none = none ↔ l = [] := by
  cases l with
  | nil => simp
  | cons r t =>
      simp only [List.foldl_cons]
      have hr : pickLatest none r = some r := rfl
      rw [hr]
      simpa using foldl_pickLatest_some t r

theorem foldl_pickLatest_mem (l : List HourRow) :
    ∀ (b : Option HourRow) (r : HourRow),
      l.foldl pickLatest b = some r → b = some r ∨ r ∈ l := by
  induction l with
  | nil => intro b r h; simp_all
  | cons a t ih =>
      intro b r h
      simp only [List.foldl_cons] at h
      rcases ih (pickLatest b a) r h with h2 | h2
      · cases b with
        | none =>
            right
            have : a = r := by simpa [pickLatest] using h2
            simp [this]
        | some b0 =>
            have hpl : pickLatest (some b0) a =
                if b0.date < a.date then some a else some b0 := rfl
            by_cases hba : b0.date < a.date
            · right
              rw [hpl, if_pos hba] at h2
              simp_all
            · left
              rw [hpl, if_neg hba] at h2
              simp_all
      · right; exact List.mem_cons_of_mem _ h2

/-- The result of the latest-prices database branch does not depend on
whether the cache manager is present (only the write-back does). -/
theorem latestPricesDbPath_result_indep (cp1 cp2 connOk : Bool)
    (dbRead : Except Unit (List PriceRow)) (store : List HourRow) (now : ℤ)
    (hr putOk : Bool) :
    (latestPricesDbPath cp1 connOk dbRead store now hr putOk).result =
      (latestPricesDbPath cp2 connOk dbRead store now hr putOk).result := by
  unfold latestPricesDbPath
  split
  · rfl
  · cases dbRead with
    | error e => rfl
    | ok data => by_cases h : data = [] <;> simp [h]

/-- A dispatch tick over jobs none of whose due handlers diverge invokes
exactly the due jobs and runs to completion. -/
theorem run_pending_total (jobs : List (Bool × HandlerBeh))
    (hnd : ∀ j ∈ jobs, j.1 = true → j.2 ≠ HandlerBeh.diverges) :
    (run_pending jobs).1 = jobs.map (·.1) ∧ (run_pending jobs).2 = true := by
  induction jobs with
  | nil => simp [run_pending]
  | cons j rest ih =>
      obtain ⟨due, beh⟩ := j
      have hrest : ∀ j ∈ rest, j.1 = true → j.2 ≠ HandlerBeh.diverges := by
        intro x hx
        exact hnd x (List.mem_cons_of_mem _ hx)
      obtain ⟨ih1, ih2⟩ := ih hrest
      cases due with
      | false => simp [run_pending, ih1, ih2]
      | true =>
          have hbeh : beh ≠ HandlerBeh.diverges :=
            hnd (true, beh) (List.mem_cons_self _ _) rfl
          have hw : wrapped_task beh = some () := by
            cases beh <;> simp_all [wrapped_task]
          simp [run_pending, hw, ih1, ih2]

/-- Once a due job whose handler never returns is reached, no job registered
after it is invoked on that tick. -/
theorem run_pending_blocked (pre post : List (Bool × HandlerBeh)) :
    (run_pending (pre ++ (true, HandlerBeh.diverges) :: post)).1.drop
        (pre.length + 1) =
      post.map fun _ => false := by
  induction pre with
  | nil =>
      simp [run_pending, wrapped_task]
  | cons j pre ih =>
      obtain ⟨due, beh⟩ := j
      cases due with
      | false =>
          simpa [run_pending, List.length_cons, Nat.add_right_comm] using ih
      | true =>
          cases beh with
          | diverges =>
              have hdrop :
                  ((pre ++ (true, HandlerBeh.diverges) :: post).map
                      fun _ => (false : Bool)).drop (pre.length + 1) =
                    post.map fun _ => false := by
                rw [← List.map_drop]
                have : (pre ++ (true, HandlerBeh.diverges) :: post).drop
                    (pre.length + 1) = post := by
                  rw [← List.drop_drop, List.drop_left]
                  simp
                rw [this]
              simpa [run_pending, wrapped_task, List.length_cons,
                Nat.add_right_comm] using hdrop
          | ok =>
              simpa [run_pending, wrapped_task, List.length_cons,
                Nat.add_right_comm] using ih
          | fails =>
              simpa [run_pending, wrapped_task, List.length_cons,
                Nat.add_right_comm] using ih
          | raises =>
              simpa [run_pending, wrapped_task, List.length_cons,
                Nat.add_right_comm] using ih

/-- The realtime processor entry point never returns normally. -/
theorem run_realtime_processor_none (fuel : Nat) :
    run_realtime_processor fuel = none := by
  induction fuel with
  | zero => rfl
  | succ n ih => simpa [run_realtime_processor] using ih

/- ## C9 helper lemmas -/

theorem filterMap_enumFrom_threshold {α β : Type _} (t : ℕ) (f : ℕ → α → β) :
    ∀ (l : List α) (s : ℕ),
      (List.enumFrom s l).filterMap
          (fun p => if t ≤ p.1 then some (f p.1 p.2) else none) =
        ((List.enumFrom s l).drop (t - s)).map fun p => f p.1 p.2 := by
  intro l
  induction l with
  | nil => intro s; simp
  | cons a l ih =>
      intro s
      by_cases h : t ≤ s
      · have h0 : t - s = 0 := by omega
        have h1 : t - (s + 1) = 0 := by omega
        simp [List.enumFrom_cons, List.filterMap_cons, h, h0, ih (s + 1), h1]
      · have h2 : t - s = (t - (s + 1)) + 1 := by omega
        simp [List.enumFrom_cons, List.filterMap_cons, h, ih (s + 1), h2]

/-- The volatility branch of `process_chart_data` keeps exactly the indices
from `window_size - 1` on: it is the mapped suffix of the enumeration. -/
theorem volatility_entries (l : List ChartItem) (w : ℕ) :
    (l.enum.filterMap fun p =>
        if w - 1 ≤ p.1 then some (volPointAt l w p.1 p.2) else none) =
      (l.enum.drop (w - 1)).map fun p => volPointAt l w p.1 p.2 := by
  have h := filterMap_enumFrom_threshold (w - 1)
    (fun i it => volPointAt l w i it) l 0
  simpa using h

/-- The volatility entry at position `k` is built at source index
`w - 1 + k` over the item there. -/
theorem volatility_getD (l : List ChartItem) (w k : ℕ)
    (hk : k < l.length - (w - 1)) (d : VolPoint) (di : ChartItem) :
    (((l.enum.drop (w - 1)).map fun p => volPointAt l w p.1 p.2).getD k d) =
      volPointAt l w (w - 1 + k) (l.getD (w - 1 + k) di) := by
  have hlen1 : k < ((l.enum.drop (w - 1)).map fun p =>
      volPointAt l w p.1 p.2).length := by
    simpa [List.enum_length] using hk
  have hlen4 : (w - 1) + k < l.length := by omega
  rw [List.getD_eq_getElem _ _ hlen1]
  rw [List.getElem_map]
  rw [List.getElem_drop]
  rw [List.getElem_enum]
  rw [List.getD_eq_getElem l di hlen4]

/-- At source index `w - 1 + k` the window of `volPointAt` is the `w` closes
starting at position `k`, and its statistics are the population mean and
variance of that window. -/
theorem volPointAt_window (l : List ChartItem) (w k : ℕ) (hw1 : 1 ≤ w)
    (item : ChartItem) :
    volPointAt l w (w - 1 + k) item =
      ⟨item.date, item.timestamp_ms,
        popMean (((l.drop k).take w).map (·.close)),
        popVariance (((l.drop k).take w).map (·.close))⟩ := by
  have hidx : w - 1 + k + 1 - w = k := by omega
  unfold volPointAt popVariance popMean
  rw [hidx]

/-- Reduction of `process_chart_data` on a non-degenerate input. -/
theorem process_chart_data_eq (data : List ChartItem) (symbol : String)
    (hd : data ≠ [])
    (hf : data.filter (fun item => item.symbol == symbol) ≠ []) :
    process_chart_data data symbol =
      ⟨((data.filter fun item => item.symbol == symbol).mergeSort fun a b =>
          decide (a.date ≤ b.date)).map (fun item =>
            (⟨item.date, item.timestamp_ms, item.close, item.high, item.low,
              item.open_price⟩ : PricePoint)),
        ((data.filter fun item => item.symbol == symbol).mergeSort fun a b =>
          decide (a.date ≤ b.date)).map (fun item =>
            (⟨item.date, item.timestamp_ms, item.volume⟩ : VolumePoint)),
        ((data.filter fun item => item.symbol == symbol).mergeSort fun a b =>
          decide (a.date ≤ b.date)).enum.filterMap fun p =>
            if min 10 ((data.filter fun item => item.symbol == symbol).mergeSort
                fun a b => decide (a.date ≤ b.date)).length - 1 ≤ p.1 then
              some (volPointAt
                ((data.filter fun item => item.symbol == symbol).mergeSort
                  fun a b => decide (a.date ≤ b.date))
                (min 10 ((data.filter fun item => item.symbol == symbol).mergeSort
                  fun a b => decide (a.date ≤ b.date)).length) p.1 p.2)
            else none⟩ := by
  simp [process_chart_data, hd, hf]

/- ## C7: connection release on the read and write paths -/

/-- C7: the claim that every store operation releases its database connection
on every exit path fails in `get_chart_data`: when the store read raises
(`dbRead = .error ()`), the exception jumps over `self.db.disconnect()` to the
outer `except`, which returns `[]` with the connection still checked out.
(`get_latest_prices` and `process_and_store_data` do release theirs via
`finally`; the spec labels release-on-every-path a MUST, so this is a slip in
the code.) -/
theorem get_chart_data_leaks_connection :
    (get_chart_data CacheRead.absent (some "BTC") true (Except.error ()) true).connAcquired
        = true ∧
      (get_chart_data CacheRead.absent (some "BTC") true (Except.error ()) true).connReleased
        = false := by
  constructor <;> rfl

/- ## C8: the operative clear_cache -/

/-- C8 (amended): the operative `clear_cache` supports only the `all`/absent
scope: with the manager present it clears all cache keys and reports a boolean
success or failure message — no count of cleared keys — and any other scope,
including `prices` and `charts`, is answered with an unsupported-type
failure; with the manager absent it fails. -/
theorem clear_cache_spec (mp ok : Bool) (t : Option String) :
    (mp = false → clear_cache mp ok t = .failure "Redis管理器未初始化") ∧
    (mp = true → (t = some "all" ∨ t = none) →
      clear_cache mp ok t =
        if ok then ClearCacheReply.success "所有缓存已清理"
        else ClearCacheReply.failure "清理缓存失败") ∧
    (mp = true → t ≠ some "all" → t ≠ none →
      clear_cache mp ok t =
        .failure ("不支持的缓存类型: " ++ t.getD "")) := by
  refine ⟨?_, ?_, ?_⟩ <;> intros <;> simp_all [clear_cache]

/-- C8 witness: clearing with the `all` scope succeeds. -/
theorem clear_cache_spec_witness :
    clear_cache true true (some "all") = .success "所有缓存已清理" := by
  have h := (clear_cache_spec true true (some "all")).2.1 rfl (Or.inl rfl)
  simpa using h

/-- C8 counterexample: the `prices` scope — supported according to the claim —
is rejected by the operative `clear_cache` (the second of the two Python
definitions of the method, which shadows the first). -/
theorem clear_cache_counterexample :
    (clear_cache true true (some "prices")).isSuccess = false := by
  rfl

/- ## C3: when an ingestion pass returns false -/

/-- C3 (amended): an ingestion pass returns `false` exactly when the database
connection fails, the acquisition step raises, or (for the realtime pass) the
acquisition yields no data at all; per-sample and per-row persistence
failures reported as booleans are logged and skipped and the pass still
returns `true`.  (The batch pass `process_and_store_data` does not even check
for an empty scrape result.) -/
theorem ingestion_pass_false_conditions (dbConnect : Bool)
    (scraped : Except Unit (List RtSample)) (score : ℤ → ℚ)
    (insertOk : RtSample → Bool) (cacheOk : Bool)
    (scrapedD : Except Unit (List RtSample × List (String × List HistRow)))
    (insertCur : RtSample → Bool) :
    ((process_and_store_realtime_data dbConnect scraped score insertOk cacheOk).ok
        = false ↔
      (dbConnect = false ∨ scraped = .error () ∨ scraped = .ok [])) ∧
    ((process_and_store_data dbConnect scrapedD insertCur).ok = false ↔
      (dbConnect = false ∨ scrapedD = .error ())) := by
  constructor
  · cases dbConnect with
    | false => simp [process_and_store_realtime_data]
    | true =>
        cases scraped with
        | error e => simp [process_and_store_realtime_data]
        | ok l =>
            by_cases h : l = [] <;>
              simp [process_and_store_realtime_data, h]
  · cases dbConnect with
    | false => simp [process_and_store_data]
    | true =>
        cases scrapedD with
        | error e => simp [process_and_store_data]
        | ok p => simp [process_and_store_data]

/-- C3 witness: a pass over a non-empty acquired batch with a connected
database returns `true` even though the insert collaborator rejects every
sample. -/
theorem ingestion_pass_witness :
    (process_and_store_realtime_data true (.ok [sampleBTC]) (fun _ => 1)
        (fun _ => false) true).ok = true := by
  have h :=
    (ingestion_pass_false_conditions true (.ok [sampleBTC]) (fun _ => 1)
      (fun _ => false) true (.ok ([], [])) fun _ => false).1
  cases hok : (process_and_store_realtime_data true (.ok [sampleBTC])
      (fun _ => 1) (fun _ => false) true).ok
  · exfalso
    rcases h.mp hok with h2 | h2 | h2 <;> simp_all
  · rfl

/-- C3 counterexample: with the database connection failing but a successful,
non-empty acquisition, the realtime pass returns `false` — contradicting the
claim that `false` is returned only when acquisition fails or yields no
data. -/
theorem ingestion_pass_counterexample :
    ¬ ((process_and_store_realtime_data false (.ok [sampleBTC]) (fun _ => 1)
          (fun _ => true) true).ok = false →
        (Except.ok [sampleBTC] : Except Unit (List RtSample)) = .error () ∨
          ([sampleBTC] : List RtSample) = []) := by
  intro h
  rcases h rfl with h2 | h2 <;> simp_all

/- ## C2: the quality gate and the cache write-through -/

/-- C2 (amended): over a non-empty acquired batch with a connected database,
the realtime pass attempts to persist exactly the samples whose quality score
against the `minute` cadence is at least 0.5 (all of them are persisted when
the insert collaborator accepts them; a rejected or failed sample is logged
and skipped without aborting the batch), and after persistence the pass
writes the ENTIRE fetched snapshot set — not only the accepted samples —
through to the latest-prices cache (both the list payload and the per-symbol
loop). -/
theorem realtime_pass_quality_gate (score : ℤ → ℚ) (insertOk : RtSample → Bool)
    (cacheOk : Bool) (batch : List RtSample) (hne : batch ≠ [])
    (o : RtPassOutcome)
    (ho : o = process_and_store_realtime_data true (.ok batch) score insertOk
      cacheOk) :
    o.accepted = batch.filter (fun s => decide (score s.timestamp ≥ 0.5)) ∧
    o.stored = o.accepted.filter insertOk ∧
    ((∀ s, insertOk s = true) → o.stored = o.accepted) ∧
    o.cachedPayload = some batch ∧
    o.perSymbolCached = batch ∧
    o.ok = true := by
  subst ho
  have hred : process_and_store_realtime_data true (.ok batch) score insertOk
      cacheOk =
      ⟨batch.filter fun s => decide (score s.timestamp ≥ 0.5),
        (batch.filter fun s => decide (score s.timestamp ≥ 0.5)).filter insertOk,
        some batch, batch, true⟩ := by
    simp [process_and_store_realtime_data, hne]
  rw [hred]
  refine ⟨rfl, rfl, ?_, rfl, rfl, rfl⟩
  intro hall
  exact List.filter_eq_self.mpr fun a _ => hall a

/-- C2 witness: a singleton batch of one fresh sample is accepted, stored and
cached. -/
theorem realtime_pass_quality_gate_witness :
    (process_and_store_realtime_data true (.ok [sampleBTC]) (fun _ => 1)
        (fun _ => true) true).cachedPayload = some [sampleBTC] := by
  have h := realtime_pass_quality_gate (fun _ => 1) (fun _ => true) true
    [sampleBTC] (by simp) _ rfl
  exact h.2.2.2.1

/-- C2 counterexample: with one stale and one fresh sample, the accepted set
is the fresh sample alone, yet the payload written through to the
latest-prices cache is the whole fetched batch — the claim that exactly the
accepted snapshot set is written to the cache is false. -/
theorem realtime_cache_counterexample :
    (process_and_store_realtime_data true (.ok [staleETH, sampleBTC]) demoScore
        (fun _ => true) true).cachedPayload ≠
      some (process_and_store_realtime_data true (.ok [staleETH, sampleBTC])
        demoScore (fun _ => true) true).accepted := by
  have h0 : ¬ ((0 : ℚ) ≥ 0.5) := by norm_num
  have h1 : ((1 : ℚ) ≥ 0.5) := by norm_num
  simp [process_and_store_realtime_data, demoScore, staleETH, sampleBTC,
    List.filter_cons, h0, h1]

/- ## C5: failure isolation in the dispatch loop -/

/-- C5 (amended, spec-modelled dispatch): an exception inside a job handler
is caught and logged inside the wrapper, which returns normally, so a raising
(or failure-reporting) handler never terminates the dispatch tick and never
delays or skips any other due job on that tick — whenever no due handler
diverges, the tick completes and invokes exactly the due jobs.  But job
invocation is synchronous within the tick, so a due handler that never
returns blocks every job registered after it — and the handler the scheduler
registers for the realtime job, `run_realtime_processor`, never returns. -/
theorem scheduler_failure_isolation (jobs : List (Bool × HandlerBeh))
    (hnd : ∀ j ∈ jobs, j.1 = true → j.2 ≠ HandlerBeh.diverges) :
    wrapped_task HandlerBeh.raises = some () ∧
    (run_pending jobs).1 = jobs.map (·.1) ∧
    (run_pending jobs).2 = true ∧
    (∀ pre post : List (Bool × HandlerBeh),
      (run_pending (pre ++ (true, HandlerBeh.diverges) :: post)).1.drop
          (pre.length + 1) =
        post.map fun _ => false) ∧
    (∀ fuel, run_realtime_processor fuel = none) := by
  obtain ⟨h1, h2⟩ := run_pending_total jobs hnd
  exact ⟨rfl, h1, h2, run_pending_blocked, run_realtime_processor_none⟩

/-- C5 witness: on a tick where the first due handler raises and the second
runs normally, both due jobs are invoked. -/
theorem scheduler_failure_isolation_witness :
    (run_pending [(true, HandlerBeh.raises), (true, HandlerBeh.ok)]).1 =
      [true, true] := by
  have h := scheduler_failure_isolation
    [(true, HandlerBeh.raises), (true, HandlerBeh.ok)] (by decide)
  simpa using h.2.1

/-- C5 counterexample: when the first registered job is due and its handler
never returns (as `run_realtime_processor` does not), the second registered
job — due, with a perfectly healthy handler — is never invoked on the tick,
so a non-terminating handler does delay and skip other jobs. -/
theorem scheduler_blocking_counterexample :
    ¬ ((run_pending [(true, HandlerBeh.diverges), (true, HandlerBeh.ok)]).1.getD
        1 false = true) := by
  decide

/- ## C1: the 24h-change recomputation and its fallback -/

/-- C1: `calculate_24h_change` (as used by `get_latest_prices`) yields
`(current - reference) / reference * 100` whenever the store read succeeds
and the `hour_data` table holds a (non-zero) close at or before `now - 24`
hours — the reference being the close price of such a row — and yields `None`
(so that the caller uses the API-reported fallback value) exactly when the
read raises, no such row exists, or the reference price is zero; a store
error is thus treated as not-found and never propagated to the read path. -/
theorem change_24h_recomputation (store : List HourRow) (sym : String)
    (now : ℤ) (cp fallback : ℚ) (raises : Bool) :
    (calculate_24h_change store sym now cp raises = none ↔
      (raises = true ∨ query24hRef store sym now = none ∨
        query24hRef store sym now = some 0)) ∧
    (∀ r, raises = false → query24hRef store sym now = some r → r ≠ 0 →
      calculate_24h_change store sym now cp raises =
          some ((cp - r) / r * 100) ∧
        ∃ row ∈ store, row.symbol = sym ∧ row.date ≤ now - 24 ∧
          row.close_price = r) ∧
    ((raises = true ∨ query24hRef store sym now = none ∨
        query24hRef store sym now = some 0) →
      resolveChange (calculate_24h_change store sym now cp raises)
          (some fallback) = fallback) ∧
    (query24hRef store sym now = none ↔
      ∀ row ∈ store, ¬(row.symbol = sym ∧ row.date ≤ now - 24)) := by
  have hnone : query24hRef store sym now = none ↔
      ∀ row ∈ store, ¬(row.symbol = sym ∧ row.date ≤ now - 24) := by
    unfold query24hRef
    rw [Option.map_eq_none']
    rw [foldl_pickLatest_eq_none]
    rw [List.filter_eq_nil_iff]
    simp
  have hcalc : calculate_24h_change store sym now cp raises = none ↔
      (raises = true ∨ query24hRef store sym now = none ∨
        query24hRef store sym now = some 0) := by
    unfold calculate_24h_change
    cases raises with
    | true => simp
    | false =>
        cases hq : query24hRef store sym now with
        | none => simp
        | some r => by_cases hr : r = 0 <;> simp [hr]
  refine ⟨hcalc, ?_, ?_, hnone⟩
  · intro r hraises hq hr
    constructor
    · simp [calculate_24h_change, hraises, hq, hr]
    · unfold query24hRef at hq
      rw [Option.map_eq_some'] at hq
      obtain ⟨row, hrow, hclose⟩ := hq
      rcases foldl_pickLatest_mem _ _ _ hrow with h | h
      · simp at h
      · have hmem := List.mem_filter.mp h
        refine ⟨row, hmem.1, ?_⟩
        have hp := of_decide_eq_true hmem.2
        exact ⟨hp.1, hp.2, hclose⟩
  · intro h
    rw [hcalc.mpr h]
    rfl

/-- C1 witness: with a BTC close of 1 recorded 24 hours before `now = 24`,
a current price of 2 recomputes to a +100 percent change. -/
theorem change_24h_recomputation_witness :
    calculate_24h_change [hourRowBTC] "BTC" 24 2 false = some 100 := by
  have hq : query24hRef [hourRowBTC] "BTC" 24 = some 1 := rfl
  have h := (change_24h_recomputation [hourRowBTC] "BTC" 24 2 0 false).2.1 1
    rfl hq (by norm_num)
  rw [h.1]
  norm_num

/- ## C10: the change_24h carried by the database path -/

/-- C10: on the cache-miss path of `get_latest_prices`, every returned entry
carries a (total, numeric) `change_24h`: it is the recomputed change whenever
`calculate_24h_change` produces one, otherwise the stored API-reported value
when that is non-null, and otherwise exactly 0. -/
theorem db_path_change_total (cacheGet : CacheRead PriceView) (connOk : Bool)
    (data : List PriceRow) (store : List HourRow) (now : ℤ)
    (hourRaises putOk : Bool)
    (hmiss : cacheGet = .absent ∨ cacheGet = .raises ∨
      cacheGet = .returns []) (hconn : connOk = true) (hne : data ≠ [])
    (o : ReadOutcome PriceView)
    (ho : o = get_latest_prices cacheGet connOk (.ok data) store now
      hourRaises putOk) :
    o.result = data.map (latestPriceView store now hourRaises) ∧
    (∀ item : PriceRow,
      (latestPriceView store now hourRaises item).change_24h =
        resolveChange
          (calculate_24h_change store item.symbol now item.price hourRaises)
          item.api_change_24h) ∧
    (∀ (c : ℚ) (a : Option ℚ), resolveChange (some c) a = c) ∧
    (∀ a : ℚ, resolveChange none (some a) = a) ∧
    resolveChange none none = 0 := by
  subst hconn
  have hres : o.result = data.map (latestPriceView store now hourRaises) := by
    have hdb : ∀ cp : Bool,
        (latestPricesDbPath cp true (.ok data) store now hourRaises
            putOk).result =
          data.map (latestPriceView store now hourRaises) := by
      intro cp
      simp [latestPricesDbPath, hne]
    rcases hmiss with h | h | h <;> subst h <;>
      simpa [get_latest_prices, ho] using hdb _
  exact ⟨hres, fun item => rfl, fun c a => rfl, fun a => rfl, rfl⟩

/- ## C6: degraded cache -/

/-- C6: when the cache is unreachable — the manager absent or the cache read
raising — the read path absorbs the failure (the `except` branches return
control to the database path, so nothing propagates) and behaves as an
always-miss cache: the result is exactly the database-branch result, the
raising cache is indistinguishable from the absent one, and with a healthy
store the correct store-derived data is returned; when additionally the store
connection fails or the store read raises, `get_latest_prices` returns the
explicit empty list rather than raising. -/
theorem degraded_cache_read (cacheGet : CacheRead PriceView) (connOk : Bool)
    (dbRead : Except Unit (List PriceRow)) (store : List HourRow) (now : ℤ)
    (hr putOk : Bool) (hdeg : cacheGet = .absent ∨ cacheGet = .raises) :
    ((get_latest_prices cacheGet connOk dbRead store now hr putOk).result =
      (latestPricesDbPath false connOk dbRead store now hr putOk).result) ∧
    ((get_latest_prices .raises connOk dbRead store now hr putOk).result =
      (get_latest_prices .absent connOk dbRead store now hr putOk).result) ∧
    (∀ data, dbRead = .ok data → data ≠ [] → connOk = true →
      (get_latest_prices cacheGet connOk dbRead store now hr putOk).result =
        data.map (latestPriceView store now hr)) ∧
    ((connOk = false ∨ dbRead = .error ()) →
      (get_latest_prices cacheGet connOk dbRead store now hr putOk).result
        = []) := by
  have hind := latestPricesDbPath_result_indep true false connOk dbRead store
    now hr putOk
  have h1 : (get_latest_prices cacheGet connOk dbRead store now hr
      putOk).result =
      (latestPricesDbPath false connOk dbRead store now hr putOk).result := by
    rcases hdeg with h | h <;> subst h <;> simp [get_latest_prices, hind]
  refine ⟨h1, ?_, ?_, ?_⟩
  · simp [get_latest_prices, hind]
  · intro data hdb hne hco
    subst hdb; subst hco
    rw [h1]
    simp [latestPricesDbPath, hne]
  · intro h
    rw [h1]
    rcases h with h | h
    · simp [latestPricesDbPath, h]
    · subst h
      unfold latestPricesDbPath
      by_cases hc : connOk = false <;> simp [hc]

/-- C6 witness: a raising cache read still yields the store-derived data. -/
theorem degraded_cache_read_witness :
    (get_latest_prices CacheRead.raises true (.ok [rowBTC]) [] 0 false
        true).result = [latestPriceView [] 0 false rowBTC] := by
  have h := (degraded_cache_read CacheRead.raises true (.ok [rowBTC]) [] 0
    false true (Or.inr rfl)).2.2.1 [rowBTC] rfl (by simp) rfl
  simpa using h

/- ## C4: the cache-aside discipline -/

/-- On the latest-prices database branch the only payload ever written to the
cache is the result being returned. -/
theorem latestPricesDbPath_writes_result (cp connOk : Bool)
    (dbRead : Except Unit (List PriceRow)) (store : List HourRow) (now : ℤ)
    (hr putOk : Bool) :
    (latestPricesDbPath cp connOk dbRead store now hr putOk).cacheWrite
        = none ∨
      (latestPricesDbPath cp connOk dbRead store now hr putOk).cacheWrite =
        some (latestPricesDbPath cp connOk dbRead store now hr
          putOk).result := by
  unfold latestPricesDbPath
  split
  · left; rfl
  · cases dbRead with
    | error e => left; rfl
    | ok data =>
        by_cases h : data = []
        · left; simp [h]
        · cases cp <;> cases putOk <;> simp [h]

/-- On the chart-data database branch the only payload ever written to the
cache is the result being returned. -/
theorem chartDbPath_writes_result (cp : Bool) (symbol : Option String)
    (connectOk : Bool) (dbRead : Except Unit (List DbChartRow))
    (cachePutOk : Bool) :
    (chartDbPath cp symbol connectOk dbRead cachePutOk).cacheWrite = none ∨
      (chartDbPath cp symbol connectOk dbRead cachePutOk).cacheWrite =
        some (chartDbPath cp symbol connectOk dbRead cachePutOk).result := by
  unfold chartDbPath
  cases symbol with
  | none => left; rfl
  | some sym =>
      by_cases hc : connectOk = false
      · left; simp [hc]
      · cases dbRead with
        | error e => left; simp [hc]
        | ok data =>
            by_cases h : data = []
            · left; simp [hc, h]
            · cases cp <;> cases cachePutOk <;> simp [hc, h]

/-- C4 (amended): every read of latest prices, chart data or realtime data
queries the cache first and returns the cached payload on a hit without
touching the persistent store; on a miss it computes the result from the
persistent store and, whenever the computed result is non-empty (and the
cache put does not raise), writes that result back to the cache — an empty
computed result is returned without being cached; the payload of a cache
write is always exactly the result being returned (cache-aside, never
write-behind). -/
theorem cache_aside_read_path (connOk : Bool)
    (dbRead : Except Unit (List PriceRow)) (store : List HourRow) (now : ℤ)
    (hr putOk : Bool) (cconn : Bool) (cdb : Except Unit (List DbChartRow))
    (cput : Bool) (rcached : List RtView) (rconn : Bool)
    (rdb : Except Unit (List RtDbRow)) :
    (∀ payload : List PriceView, payload ≠ [] →
      get_latest_prices (.returns payload) connOk dbRead store now hr putOk =
        ⟨payload, false, false, false, none⟩) ∧
    (∀ data, dbRead = .ok data → data ≠ [] → connOk = true →
      (get_latest_prices (.returns []) connOk dbRead store now hr
          putOk).dbTouched = true ∧
      (get_latest_prices (.returns []) connOk dbRead store now hr
          putOk).result = data.map (latestPriceView store now hr) ∧
      (putOk = true →
        (get_latest_prices (.returns []) connOk dbRead store now hr
            putOk).cacheWrite =
          some (data.map (latestPriceView store now hr)))) ∧
    (∀ cg : CacheRead PriceView,
      (get_latest_prices cg connOk dbRead store now hr putOk).cacheWrite
          = none ∨
        (get_latest_prices cg connOk dbRead store now hr putOk).cacheWrite =
          some (get_latest_prices cg connOk dbRead store now hr
            putOk).result) ∧
    (∀ (payload : List ChartItem) (sym : String), payload ≠ [] →
      get_chart_data (.returns payload) (some sym) cconn cdb cput =
        ⟨payload, false, false, false, none⟩) ∧
    (∀ rows sym, cdb = .ok rows → rows ≠ [] → cconn = true →
      (get_chart_data (.returns []) (some sym) cconn cdb cput).result =
        rows.map (chartRowView sym) ∧
      (cput = true →
        (get_chart_data (.returns []) (some sym) cconn cdb cput).cacheWrite =
          some (rows.map (chartRowView sym)))) ∧
    (∀ (cg : CacheRead ChartItem) (s : Option String),
      (get_chart_data cg s cconn cdb cput).cacheWrite = none ∨
        (get_chart_data cg s cconn cdb cput).cacheWrite =
          some (get_chart_data cg s cconn cdb cput).result) ∧
    (rcached ≠ [] →
      get_realtime_data rcached rconn rdb = ⟨some rcached, false, none⟩) ∧
    (∀ rows, rdb = .ok rows → rows ≠ [] → rconn = true →
      get_realtime_data [] rconn rdb =
        ⟨some (rows.map rtRowToView), true, some (rows.map rtRowToView)⟩) := by
  refine ⟨?_, ?_, ?_, ?_, ?_, ?_, ?_, ?_⟩
  · intro payload hp
    simp [get_latest_prices, hp]
  · intro data hdb hne hco
    subst hdb; subst hco
    refine ⟨?_, ?_, ?_⟩
    · simp [get_latest_prices, latestPricesDbPath, hne]
    · simp [get_latest_prices, latestPricesDbPath, hne]
    · intro hput
      subst hput
      simp [get_latest_prices, latestPricesDbPath, hne]
  · intro cg
    cases cg with
    | absent => exact latestPricesDbPath_writes_result _ _ _ _ _ _ _
    | raises => exact latestPricesDbPath_writes_result _ _ _ _ _ _ _
    | returns payload =>
        by_cases hp : payload = []
        · subst hp
          simpa [get_latest_prices] using
            latestPricesDbPath_writes_result true connOk dbRead store now hr
              putOk
        · left
          simp [get_latest_prices, hp]
  · intro payload sym hp
    simp [get_chart_data, hp]
  · intro rows sym hdb hne hco
    subst hdb; subst hco
    constructor
    · simp [get_chart_data, chartDbPath, hne]
    · intro hput
      subst hput
      simp [get_chart_data, chartDbPath, hne]
  · intro cg s
    cases cg with
    | absent =>
        cases s with
        | none => exact chartDbPath_writes_result _ _ _ _ _
        | some sym => exact chartDbPath_writes_result _ _ _ _ _
    | raises =>
        cases s with
        | none => exact chartDbPath_writes_result _ _ _ _ _
        | some sym => exact chartDbPath_writes_result _ _ _ _ _
    | returns payload =>
        cases s with
        | none => exact chartDbPath_writes_result _ _ _ _ _
        | some sym =>
            by_cases hp : payload = []
            · subst hp
              simpa [get_chart_data] using
                chartDbPath_writes_result true (some sym) cconn cdb cput
            · left
              simp [get_chart_data, hp]
  · intro h
    simp [get_realtime_data, h]
  · intro rows hdb hne hco
    subst hdb; subst hco
    simp [get_realtime_data, hne]

/-- C4 witness: a warm cache hit is returned verbatim, with the store left
untouched. -/
theorem cache_aside_read_path_witness :
    get_latest_prices (CacheRead.returns [viewBTC]) true (.ok []) [] 0 false
        true = ⟨[viewBTC], false, false, false, none⟩ := by
  exact (cache_aside_read_path true (.ok []) [] 0 false true true (.ok [])
    true [] true (.ok [])).1 [viewBTC] (by simp)

/-- C4 counterexample: on a cache miss where the store holds no rows, the
computed (empty) result is returned WITHOUT being written back to the cache,
so the claim that the read path always writes the computed result back on a
miss is false. -/
theorem cache_aside_counterexample :
    (get_latest_prices (CacheRead.returns []) true (.ok []) [] 0 false
        true).cacheWrite ≠
      some (get_latest_prices (CacheRead.returns []) true (.ok []) [] 0 false
        true).result := by
  simp [get_latest_prices, latestPricesDbPath]

/- ## C9: the three derived chart curves -/

/-- C9: `process_chart_data` returns price and volume curves with exactly one
entry per item matching the symbol (a permutation of their views), in
ascending date order; when at least one item matches, the volatility curve
has `n - min(10, n) + 1` entries (`n` the number of matching items), the
entry at position `k` carrying the mean and population variance — hence,
through `VolPoint.volatility`, the population standard deviation — of the
trailing window of `min(10, n)` close prices of the sorted series starting at
position `k`, with `volatility_percent` equal to 0 whenever the window mean
is not positive; when no item matches, all three curves are empty. -/
theorem process_chart_data_spec (data : List ChartItem) (symbol : String)
    (matching : List ChartItem)
    (hm : matching = data.filter fun item => item.symbol == symbol)
    (w : ℕ) (hw : w = min 10 matching.length)
    (out : ChartCurves) (hout : out = process_chart_data data symbol) :
    out.price_data.length = matching.length ∧
    out.volume_data.length = matching.length ∧
    List.Sorted (· ≤ ·) (out.price_data.map (·.date)) ∧
    List.Sorted (· ≤ ·) (out.volume_data.map (·.date)) ∧
    out.price_data.Perm (matching.map fun item =>
      (⟨item.date, item.timestamp_ms, item.close, item.high, item.low,
        item.open_price⟩ : PricePoint)) ∧
    out.volume_data.Perm (matching.map fun item =>
      (⟨item.date, item.timestamp_ms, item.volume⟩ : VolumePoint)) ∧
    (matching = [] → out = ⟨[], [], []⟩) ∧
    (1 ≤ matching.length →
      out.volatility_data.length = matching.length - w + 1) ∧
    (∀ k : ℕ, k < out.volatility_data.length →
      (out.volatility_data.getD k ⟨0, none, 0, 0⟩).mean_price =
        popMean (((out.price_data.drop k).take w).map (·.price)) ∧
      (out.volatility_data.getD k ⟨0, none, 0, 0⟩).variance =
        popVariance (((out.price_data.drop k).take w).map (·.price)) ∧
      VolPoint.volatility (out.volatility_data.getD k ⟨0, none, 0, 0⟩) =
        popStdDev (((out.price_data.drop k).take w).map (·.price)) ∧
      ((out.volatility_data.getD k ⟨0, none, 0, 0⟩).mean_price ≤ 0 →
        VolPoint.volatility_percent
          (out.volatility_data.getD k ⟨0, none, 0, 0⟩) = 0)) := by
  subst hm
  subst hout
  by_cases hd : data = []
  · subst hd
    refine ⟨?_, ?_, ?_, ?_, ?_, ?_, ?_, ?_, ?_⟩ <;>
      simp [process_chart_data]
  · by_cases hf : (data.filter fun item => item.symbol == symbol) = []
    · refine ⟨?_, ?_, ?_, ?_, ?_, ?_, ?_, ?_, ?_⟩ <;>
        simp [process_chart_data, hd, hf]
    · rw [process_chart_data_eq data symbol hd hf]
      set s : List ChartItem :=
        (data.filter fun item => item.symbol == symbol).mergeSort fun a b =>
          decide (a.date ≤ b.date) with hs
      have hperm : s.Perm (data.filter fun item => item.symbol == symbol) := by
        rw [hs]
        exact List.mergeSort_perm _ _
      have hlen : s.length =
          (data.filter fun item => item.symbol == symbol).length :=
        hperm.length_eq
      have hfl : 0 < (data.filter fun item => item.symbol == symbol).length :=
        List.length_pos.mpr hf
      have hw1 : 1 ≤ w := by
        rw [hw]
        exact le_min (by norm_num) hfl
      have hws : min 10 s.length = w := by
        rw [hlen]
        exact hw.symm
      rw [hws, volatility_entries s w]
      have hpair : List.Pairwise (fun a b : ChartItem => a.date ≤ b.date) s := by
        rw [hs]
        refine List.Pairwise.imp ?_ (List.sorted_mergeSort ?_ ?_ _)
        · intro a b hab
          exact of_decide_eq_true hab
        · intro a b c hab hbc
          have h1 := of_decide_eq_true hab
          have h2 := of_decide_eq_true hbc
          exact decide_eq_true (le_trans h1 h2)
        · intro a b
          rcases le_total a.date b.date with h | h <;> simp [h]
      refine ⟨?_, ?_, ?_, ?_, ?_, ?_, ?_, ?_, ?_⟩
      · simp [hlen]
      · simp [hlen]
      · rw [List.map_map]
        exact List.pairwise_map.mpr hpair
      · rw [List.map_map]
        exact List.pairwise_map.mpr hpair
      · exact hperm.map _
      · exact hperm.map _
      · intro h
        exact absurd h hf
      · intro _hn
        have hL : ((s.enum.drop (w - 1)).map fun p =>
            volPointAt s w p.1 p.2).length = s.length - (w - 1) := by
          simp [List.enum_length]
        rw [hL, hlen]
        omega
      · intro k hk
        have hk2 : k < s.length - (w - 1) := by
          simpa [List.enum_length] using hk
        have hwin : (((s.map fun item =>
              (⟨item.date, item.timestamp_ms, item.close, item.high, item.low,
                item.open_price⟩ : PricePoint)).drop k).take w).map (·.price) =
            ((s.drop k).take w).map (·.close) := by
          rw [← List.map_drop, ← List.map_take, List.map_map]
          rfl
        rw [volatility_getD s w k hk2 ⟨0, none, 0, 0⟩
          ⟨"", 0, none, 0, 0, 0, 0, 0⟩]
        rw [volPointAt_window s w k hw1]
        refine ⟨?_, ?_, ?_, ?_⟩
        · rw [hwin]
        · rw [hwin]
        · simp only [VolPoint.volatility, popStdDev, hwin]
        · intro hm0
          simp only [VolPoint.volatility_percent]
          rw [if_neg (not_lt.mpr hm0)]

/-- C9 witness: a single matching item yields one volatility entry (window
size `min(10, 1) = 1`). -/
theorem process_chart_data_spec_witness :
    (process_chart_data [chartItemBTC] "BTC").volatility_data.length = 1 := by
  have h := process_chart_data_spec [chartItemBTC] "BTC"
    ([chartItemBTC].filter fun item => item.symbol == "BTC") rfl
    (min 10 ([chartItemBTC].filter fun item =>
      item.symbol == "BTC").length) rfl
    (process_chart_data [chartItemBTC] "BTC") rfl
  have h8 := h.2.2.2.2.2.2.2.1 (by decide)
  simpa using h8

/-- C10 witness: with no usable history the single returned entry exists and
is the view of its row (whose change falls back to the stored API value). -/
theorem db_path_change_total_witness :
    (get_latest_prices CacheRead.absent true (.ok [rowBTC]) [] 0 false
        true).result = [latestPriceView [] 0 false rowBTC] := by
  have h := db_path_change_total CacheRead.absent true [rowBTC] [] 0 false
    true (Or.inl rfl) rfl (by simp) _ rfl
  simpa using h.1
